import Mathlib

/-!
Shallow embedding of the control-handoff, slider, options-store and
phase-report logic of dmlib (src/dmlib/zpanel.py).

Python floats are modelled by rationals, numpy vectors by lists of
rationals, and the handlers connected to the Qt signals sig_acquire,
sig_release and sig_draw by explicit state-transition functions over the
fields of ZernikeWindow that they touch.  All handlers run on the GUI
thread; the QMutex used by the window is non-recursive, so a lock() call
on a mutex that the GUI thread already holds never returns.  A handler
that never completes is modelled by an Option-valued transition
returning none.
-/

/-- Sum of squares of a vector.  Over the rationals the check
norm(u) != 0 performed by make_release_hand is equivalent to
sumSq u != 0. -/
def sumSq (l : List ℚ) : ℚ := (l.map (fun x => x * x)).sum

/-- The controller object as the release handler sees it: only its final
actuator vector u (the field t[0].u read in make_release_hand) matters. -/
structure CtrlObj where
  u : List ℚ
deriving DecidableEq, Repr

/-- The fields of ZernikeWindow that the handoff handlers touch:
whether the QMutex is held, the can_close flag, whether the tab widgets
are enabled, the shared actuator vector zcontrol.u and the coefficient
vector zpanel.z. -/
structure ZState where
  mutexLocked : Bool
  canClose : Bool
  tabsEnabled : Bool
  u : List ℚ
  z : List ℚ
deriving DecidableEq, Repr

/-- Handler installed by make_acquire_hand (zpanel.py lines 715-722).
Its first statement is self.mutex.lock(); the QMutex is non-recursive
and every handler runs on the GUI thread, so when the mutex is already
held the call never returns and the handler never completes (modelled
by none).  Otherwise it takes the lock, sets can_close = False and
disables every tab widget. -/
def acquire_hand (s : ZState) : Option ZState :=
  if s.mutexLocked then
    none
  else
    some { s with mutexLocked := true, canClose := false, tabsEnabled := false }

/-- Handler installed by make_release_hand (zpanel.py lines 701-713).
If the tuple carries a controller (t[0] is not None) and
norm(t[0].u) != 0, the shared actuator vector is overwritten by t[0].u;
in either t[0]-present case z is re-derived from the current u through
u2z.  Then all tabs are re-enabled, can_close is set and the mutex is
unlocked. -/
def release_hand (u2z : List ℚ → List ℚ) (t0 : Option CtrlObj) (s : ZState) : ZState :=
  let s1 :=
    match t0 with
    | some c =>
        let s2 := if sumSq c.u = 0 then s else { s with u := c.u }
        { s2 with z := u2z s2.u }
    | none => s
  { s1 with tabsEnabled := true, canClose := true, mutexLocked := false }

/-- Handler connected to sig_draw (zpanel.py lines 727-737).  It
performs no state check: it unconditionally overwrites zcontrol.u with
the vector carried by the signal, re-derives z through u2z and redraws
(display only, no hardware write). -/
def draw_hand (u2z : List ℚ → List ℚ) (v : List ℚ) (s : ZState) : ZState :=
  { s with u := v, z := u2z v }

/-- ZernikeWindow.acquire_control (zpanel.py lines 882-906): emit
sig_acquire, then construct the controller; on construction failure emit
sig_release with t[0] = None and re-raise.  The construction attempt is
abstracted by an Except value.  The net effect once the queued handlers
have run is modelled by composing the handler transitions; none means
the acquire handler never completed (mutex already held). -/
def acquire_control (u2z : List ℚ → List ℚ) (construct : Except String CtrlObj)
    (s : ZState) : Option (Except String CtrlObj × ZState) :=
  match acquire_hand s with
  | none => none
  | some s1 =>
    match construct with
    | Except.ok c => some (Except.ok c, s1)
    | Except.error e => some (Except.error e, release_hand u2z none s1)

/-- Concrete idle window state used in counterexamples and witnesses. -/
def sIdle : ZState :=
  { mutexLocked := false, canClose := true, tabsEnabled := true, u := [0], z := [0] }

/-- The state after a first successful acquire from sIdle. -/
def sHeld : ZState :=
  { mutexLocked := true, canClose := false, tabsEnabled := false, u := [0], z := [0] }

/-- The state of a RelSlider (zpanel.py lines 196-343): old_val is the
gesture anchor (None between gestures), sba the value of the effective
QDoubleSpinBox (the externally visible absolute value v), qsr the
position of the relative QSlider (integer range -100..100), sbm the
value of the maximum-relative-delta QDoubleSpinBox, and cbLog records
the sequence of values passed to the change callback self.cb. -/
structure RelSlider where
  old_val : Option ℚ
  sba : ℚ
  qsr : ℤ
  sbm : ℚ
  cbLog : List ℚ
deriving DecidableEq, Repr

/-- Handler qs1_start (zpanel.py lines 262-267), connected to
sliderPressed: captures the anchor old_val from the current value
self.get_value() (the sba spin box). -/
def qs1_start (s : RelSlider) : RelSlider := { s with old_val := some s.sba }

/-- Handler qs1_cb (zpanel.py lines 237-252), connected to the relative
slider valueChanged: if no anchor is captured it resets the slider to 0
and returns; otherwise it computes val = old_val + qsr/100 * sbm, sets
the spin box to val and invokes the change callback with val.  Signals
are blocked for the duration, so no re-entrant events fire. -/
def qs1_cb (s : RelSlider) : RelSlider :=
  match s.old_val with
  | none => { s with qsr := 0 }
  | some a =>
      let val := a + (s.qsr : ℚ) / 100 * s.sbm
      { s with sba := val, cbLog := s.cbLog ++ [val] }

/-- Handler qs1_end (zpanel.py lines 254-260), connected to
sliderReleased: resets the relative slider to 0 and clears the anchor. -/
def qs1_end (s : RelSlider) : RelSlider := { s with qsr := 0, old_val := none }

/-- A gesture update: Qt first stores the new slider position rel and
then fires valueChanged, which runs qs1_cb reading self.qsr.value(). -/
def update_gesture (rel : ℤ) (s : RelSlider) : RelSlider := qs1_cb { s with qsr := rel }

/-- Concrete slider at rest used in counterexamples: value 0, maximum
relative delta 4 (the constructor default), no gesture in progress. -/
def rs0 : RelSlider := { old_val := none, sba := 0, qsr := 0, sbm := 4, cbLog := [] }

/-- Concrete slider mid-gesture used as witness input: anchor 1 captured,
value 1, maximum relative delta 2. -/
def rsW : RelSlider := { old_val := some 1, sba := 1, qsr := 0, sbm := 2, cbLog := [] }

/-- A stored option value of the OptionsPanel store.  Python integers
and floats are immutable values; a Python list is a mutable object, so a
list-of-float value is represented by the address of a cell in an
explicit heap of lists, mirroring object identity. -/
inductive OptVal where
  | oint (n : ℤ)
  | ofloat (q : ℚ)
  | olist (addr : ℕ)
deriving DecidableEq, Repr

/-- The concrete value denoted by a stored option value once list
references are followed through the heap. -/
inductive CVal where
  | cint (n : ℤ)
  | cfloat (q : ℚ)
  | clist (l : List ℚ)
deriving DecidableEq, Repr

/-- Lookup by key in an association list (a Python dict in insertion
order). -/
def lookupA {α : Type} (k : String) : List (String × α) → Option α
  | [] => none
  | (k1, v) :: rest => if k1 = k then some v else lookupA k rest

/-- The state of an OptionsPanel (zpanel.py lines 55-193): heap holds
the mutable list objects, options is pars[name + _options] mapping each
strategy name to its values dict, selection is the current combo text,
and lines models the rows of editing widgets currently displayed (built
by from_dict from the selected strategy values). -/
structure OptionsPanel where
  heap : List (List ℚ)
  options : List (String × List (String × OptVal))
  selection : String
  lines : List (String × OptVal)
deriving DecidableEq, Repr

/-- Read the concrete value of a stored option, following a list
reference through the heap. -/
def readVal (heap : List (List ℚ)) : OptVal → CVal
  | OptVal.oint n => CVal.cint n
  | OptVal.ofloat q => CVal.cfloat q
  | OptVal.olist a => CVal.clist (heap.getD a [])

/-- The combo currentTextChanged handler (zpanel.py lines 98-108):
clear_all removes the displayed widget rows, from_dict rebuilds them
from the stored values of the newly selected strategy, and the selection
is recorded.  The stored options dicts and the heap are not touched. -/
def switch_strategy (p : OptionsPanel) (name : String) : OptionsPanel :=
  { p with lines := (lookupA name p.options).getD [], selection := name }

/-- OptionsPanel.get_options (zpanel.py lines 110-114): returns the
current selection together with dict(values), a shallow copy of the
values dict of the selected strategy - the top-level key/value pairs are
copied, but a list value is the same heap object (same address). -/
def get_options (p : OptionsPanel) : String × List (String × OptVal) :=
  (p.selection, (lookupA p.selection p.options).getD [])

/-- A caller-side mutation performed through the value returned by
get_options: look up key k in the returned dict and, when it is a list,
assign element i of that list object in place (ret[k][i] = x in
Python).  Only the heap cell is written; the store itself is never
named. -/
def mutate_returned_list (p : OptionsPanel) (ret : String × List (String × OptVal))
    (k : String) (i : ℕ) (x : ℚ) : OptionsPanel :=
  match lookupA k ret.2 with
  | some (OptVal.olist a) => { p with heap := p.heap.set a ((p.heap.getD a []).set i x) }
  | _ => p

/-- Concrete options panel: one strategy a whose only option k is the
list object at heap address 0 holding [1, 2]. -/
def op0 : OptionsPanel :=
  { heap := [[1, 2]]
    options := [("a", [("k", OptVal.olist 0)])]
    selection := "a"
    lines := [("k", OptVal.olist 0)] }

/-- Concrete options panel with two strategies used for the strategy
switching witness. -/
def op1 : OptionsPanel :=
  { heap := []
    options := [("a", [("k", OptVal.ofloat 1)]), ("b", [("j", OptVal.oint 2)])]
    selection := "a"
    lines := [("k", OptVal.ofloat 1)] }

/-- One sample of the derived 2-D phase field.  numpy evaluation of the
Zernike grid yields ordinary floats together with possible NaN and
infinities (outside the unit disk the evaluator produces non-finite
samples); np.isfinite keeps only the fin values. -/
inductive FVal where
  | fin (q : ℚ)
  | nan
  | pinf
  | ninf
deriving DecidableEq, Repr

/-- Scalar multiplication of a field sample by the unit multiplier, with
IEEE sign behaviour on the non-finite values. -/
def mulF (m : ℚ) : FVal → FVal
  | FVal.fin q => FVal.fin (m * q)
  | FVal.nan => FVal.nan
  | FVal.pinf => if 0 < m then FVal.pinf else if m < 0 then FVal.ninf else FVal.nan
  | FVal.ninf => if 0 < m then FVal.ninf else if m < 0 then FVal.pinf else FVal.nan

/-- The finite samples of a field, phi[np.isfinite(phi)]. -/
def finiteVals (l : List FVal) : List ℚ :=
  l.filterMap (fun v => match v with | FVal.fin q => some q | _ => none)

/-- Minimum of a list, as numpy ndarray.min: undefined (none) on an
empty array. -/
def listMin : List ℚ → Option ℚ
  | [] => none
  | x :: xs =>
    match listMin xs with
    | none => some x
    | some m => some (min x m)

/-- Maximum of a list, as numpy ndarray.max: undefined (none) on an
empty array. -/
def listMax : List ℚ → Option ℚ
  | [] => none
  | x :: xs =>
    match listMax xs with
    | none => some x
    | some m => some (max x m)

/-- The numbers shown in the status line by update_phi_plot: the min and
max over the finite samples, the peak-to-valley max - min, and the RMS
mul * norm(z).  Since the Euclidean norm is irrational in general the
report carries the exact square of the RMS, rmsSq = mul^2 * sumSq z;
the reported RMS itself is its square root. -/
structure PhiReport where
  min1 : ℚ
  max1 : ℚ
  pv : ℚ
  rmsSq : ℚ
deriving DecidableEq, Repr

/-- ZernikePanel.update_phi_plot (zpanel.py lines 571-579): the field is
phi = mul * eval(z); inner = phi[np.isfinite(phi)]; min and max are
taken over inner (ndarray.min raises on an empty array, modelled by
none) and rms = mul * norm(z).  The external Zernike evaluator is
abstracted by passing the raw (unscaled) field samples directly. -/
def update_phi_plot (mul : ℚ) (raw : List FVal) (z : List ℚ) : Option PhiReport :=
  let inner := finiteVals (raw.map (mulF mul))
  match listMin inner, listMax inner with
  | some m1, some m2 =>
      some { min1 := m1, max1 := m2, pv := m2 - m1, rmsSq := mul * mul * sumSq z }
  | _, _ => none

/-- ZernikeWindow constructor controller creation (zpanel.py lines
602-606): try ZernikeControl with the stored ZernikeControl parameters;
on any exception fall back to ZernikeControl with default configuration.
The constructor is abstracted by mk, taking some stored configuration or
none for the defaults, and the returned list is the sequence of log
messages emitted: the except branch logs nothing. -/
def init_zcontrol {Cfg Ctrl : Type} (mk : Option Cfg → Except String Ctrl)
    (stored : Cfg) : Except String Ctrl × List String :=
  match mk (some stored) with
  | Except.ok c => (Except.ok c, [])
  | Except.error _ => (mk none, [])

/-- ZernikeWindow.instance_control (zpanel.py lines 751-757): the same
fallback, but the exception is logged with self.log.error before the
default construction is attempted. -/
def instance_control {Cfg Ctrl : Type} (mk : Option Cfg → Except String Ctrl)
    (stored : Cfg) : Except String Ctrl × List String :=
  match mk (some stored) with
  | Except.ok c => (Except.ok c, [])
  | Except.error ex => (mk none, ["instance_control " ++ ex])

/-- A constructor that fails on any stored configuration and succeeds
with the defaults, used as concrete failing input. -/
def mkFail : Option ℕ → Except String ℕ
  | some _ => Except.error "boom"
  | none => Except.ok 7

/-- Claim C1, counterexample: from the idle state sIdle the first acquire
handler completes and yields sHeld, but a second acquire does not
complete at all (it blocks forever on the non-recursive mutex), so it is
not a rejection that leaves the state as it was after the first acquire:
acquire_hand sHeld is none, not some sHeld. -/
theorem acquire_twice_cex :
    acquire_hand sIdle = some sHeld ∧
    acquire_hand sHeld = none ∧
    acquire_hand sHeld ≠ some sHeld := by
  refine ⟨by decide, by decide, by decide⟩

/-- Claim C1 (amended): calling acquire while the coordinator is already
in state AcquiredByController deadlocks rather than being rejected: the
second acquire handler blocks forever on the mutex before making any
change, so no completed transition exists; the HandoffState fields and
the actuator vector remain whatever they were after the first acquire,
but the call never returns. -/
theorem acquire_while_acquired_deadlocks (s s1 : ZState)
    (h : acquire_hand s = some s1) : acquire_hand s1 = none := by
  unfold acquire_hand at h ⊢
  by_cases hm : s.mutexLocked
  · simp [hm] at h
  · simp [hm] at h
    subst h
    simp

theorem acquire_while_acquired_deadlocks_witness :
    acquire_hand sIdle = some sHeld ∧ acquire_hand sHeld = none :=
  ⟨by decide, acquire_while_acquired_deadlocks sIdle sHeld (by decide)⟩

/-- Claim C2, counterexample: a draw_update arriving while the
coordinator is Idle (mutex not held, tabs enabled) is not ignored: with
the identity coefficient map, delivering the vector ⟨1⟩ to the idle
state sIdle changes the state (the actuator vector becomes ⟨1⟩), so the
sig_draw handler does not validate state before applying. -/
theorem draw_when_idle_cex :
    sIdle.mutexLocked = false ∧ draw_hand id [1] sIdle ≠ sIdle := by
  refine ⟨by decide, by decide⟩

/-- Claim C2 (amended): the sig_draw handler performs no state
validation: a draw_update delivered while the coordinator is Idle is
applied unconditionally, overwriting the shared actuator vector with the
carried vector and re-deriving z from it (and redrawing the display),
exactly as it would while AcquiredByController. -/
theorem draw_when_idle_overwrites (u2z : List ℚ → List ℚ) (v : List ℚ) (s : ZState)
    (_h : s.mutexLocked = false) :
    (draw_hand u2z v s).u = v ∧ (draw_hand u2z v s).z = u2z v := ⟨rfl, rfl⟩

theorem draw_when_idle_overwrites_witness :
    sIdle.mutexLocked = false ∧
    ((draw_hand id [1] sIdle).u = [1] ∧ (draw_hand id [1] sIdle).z = id [1]) :=
  ⟨rfl, draw_when_idle_overwrites id [1] sIdle rfl⟩

/-- Claim C3: for every release carrying a controller whose final
actuator vector is not the zero-vector sentinel (sumSq c.u ≠ 0, which
over the rationals is exactly norm(c.u) ≠ 0), after the release handler
runs the shared actuator vector equals c.u exactly, the coefficient
vector z equals u2z c.u (the inverse-mapping re-derivation), the tab
widgets are re-enabled, can_close is set and the mutex is released, so
the HandoffState is Idle. -/
theorem release_final_vector (u2z : List ℚ → List ℚ) (s : ZState) (c : CtrlObj)
    (h : sumSq c.u ≠ 0) :
    (release_hand u2z (some c) s).u = c.u ∧
    (release_hand u2z (some c) s).z = u2z c.u ∧
    (release_hand u2z (some c) s).tabsEnabled = true ∧
    (release_hand u2z (some c) s).canClose = true ∧
    (release_hand u2z (some c) s).mutexLocked = false := by
  unfold release_hand
  simp [h]

theorem release_final_vector_witness :
    sumSq ([1] : List ℚ) ≠ 0 ∧
    ((release_hand id (some ⟨[1]⟩) sHeld).u = [1] ∧
     (release_hand id (some ⟨[1]⟩) sHeld).z = id [1] ∧
     (release_hand id (some ⟨[1]⟩) sHeld).tabsEnabled = true ∧
     (release_hand id (some ⟨[1]⟩) sHeld).canClose = true ∧
     (release_hand id (some ⟨[1]⟩) sHeld).mutexLocked = false) :=
  ⟨by norm_num [sumSq], release_final_vector id sHeld ⟨[1]⟩ (by norm_num [sumSq])⟩

/-- Claim C10: if the controller construction inside acquire_control
fails after acquisition has begun, the coordinator emits sig_release
(with no controller attached) before propagating the exception, so the
acquisition is rolled back: starting from any idle window state (mutex
free, can_close set, tabs enabled), the failed acquire_control returns
the error and leaves the state exactly as it was - re-enabled,
closeable, unlocked and with u and z untouched. -/
theorem acquire_rollback (u2z : List ℚ → List ℚ) (e : String) (s : ZState)
    (h1 : s.mutexLocked = false) (h2 : s.canClose = true) (h3 : s.tabsEnabled = true) :
    acquire_control u2z (Except.error e) s = some (Except.error e, s) := by
  cases s with
  | mk ml cc te u z =>
    simp only at h1 h2 h3
    subst h1; subst h2; subst h3
    simp [acquire_control, acquire_hand, release_hand]

theorem acquire_rollback_witness :
    sIdle.mutexLocked = false ∧ sIdle.canClose = true ∧ sIdle.tabsEnabled = true ∧
    acquire_control id (Except.error "boom") sIdle = some (Except.error "boom", sIdle) :=
  ⟨rfl, rfl, rfl, acquire_rollback id "boom" sIdle rfl rfl rfl⟩

/-- Claim C4: with an anchor a captured and maximum relative delta m > 0,
a gesture update with any integer rel in [-100, 100] sets the absolute
value to a + (rel/100) * m, invokes the change callback with exactly
that value and leaves m untouched; in particular the sequence
begin-gesture, update-gesture 0, end-gesture leaves the value equal to
the captured anchor exactly, with no drift. -/
theorem update_gesture_formula (s : RelSlider) (a : ℚ) (rel : ℤ)
    (_hm : 0 < s.sbm) (ha : s.old_val = some a) (_hlo : -100 ≤ rel) (_hhi : rel ≤ 100) :
    (update_gesture rel s).sba = a + (rel : ℚ) / 100 * s.sbm ∧
    (update_gesture rel s).cbLog = s.cbLog ++ [a + (rel : ℚ) / 100 * s.sbm] ∧
    (update_gesture rel s).sbm = s.sbm ∧
    (qs1_end (update_gesture 0 (qs1_start s))).sba = s.sba := by
  unfold update_gesture qs1_cb qs1_start qs1_end
  simp [ha]

theorem update_gesture_formula_witness :
    (0 : ℚ) < rsW.sbm ∧ rsW.old_val = some 1 ∧ (-100 : ℤ) ≤ 50 ∧ (50 : ℤ) ≤ 100 ∧
    ((update_gesture 50 rsW).sba = 1 + ((50 : ℤ) : ℚ) / 100 * rsW.sbm ∧
     (update_gesture 50 rsW).cbLog = rsW.cbLog ++ [1 + ((50 : ℤ) : ℚ) / 100 * rsW.sbm] ∧
     (update_gesture 50 rsW).sbm = rsW.sbm ∧
     (qs1_end (update_gesture 0 (qs1_start rsW))).sba = rsW.sba) :=
  ⟨by norm_num [rsW], rfl, by norm_num, by norm_num,
   update_gesture_formula rsW 1 50 (by norm_num [rsW]) rfl (by norm_num) (by norm_num)⟩

/-- Claim C5, counterexample: starting from the resting slider rs0,
begin a gesture (anchor 0 captured), move the slider to 50 (value
becomes 0 + 50/100 * 4 = 2), then call the begin handler again before
any end: the anchor is overwritten with the current value 2, so a
re-entrant begin does not preserve the anchor. -/
theorem begin_reentry_cex :
    (qs1_start (update_gesture 50 (qs1_start rs0))).old_val ≠
      (update_gesture 50 (qs1_start rs0)).old_val := by
  norm_num [qs1_start, update_gesture, qs1_cb, rs0]

/-- Claim C5 (amended): qs1_start has no guard at all: every call,
including a re-entrant one while a gesture is already capturing,
captures the anchor anew from the current value, so a second begin
overwrites the anchor whenever the value has moved since the first. -/
theorem begin_always_recaptures (s : RelSlider) :
    (qs1_start s).old_val = some s.sba := rfl

/-- Claim C6: switching the active strategy from a to b and back to a
restores the displayed option values of a exactly as they were before
switching away, and no switch ever discards or alters any strategy
values held in the store (the options table and the heap are untouched
by switching). -/
theorem switch_roundtrip (p : OptionsPanel) (a b : String)
    (h1 : p.selection = a) (h2 : p.lines = (lookupA a p.options).getD []) :
    (switch_strategy p b).options = p.options ∧
    (switch_strategy p b).heap = p.heap ∧
    switch_strategy (switch_strategy p b) a = p := by
  refine ⟨rfl, rfl, ?_⟩
  cases p with
  | mk heap options selection lines =>
    simp only at h1 h2
    subst h1
    simp [switch_strategy, h2]

theorem switch_roundtrip_witness :
    op1.selection = "a" ∧ op1.lines = (lookupA "a" op1.options).getD [] ∧
    ((switch_strategy op1 "b").options = op1.options ∧
     (switch_strategy op1 "b").heap = op1.heap ∧
     switch_strategy (switch_strategy op1 "b") "a" = op1) :=
  ⟨rfl, rfl, switch_roundtrip op1 "a" "b" rfl rfl⟩

/-- Claim C7, counterexample: on the panel op0 whose selected strategy
holds the list [1, 2] under key k, get_options hands out the shallow
dict copy; assigning 99 to element 0 of the list reached through the
returned value changes the concrete value stored for k in the panel
itself from [1, 2] to [99, 2] - the defensive copy does not extend to
list-of-float entries. -/
theorem get_options_cex :
    readVal (mutate_returned_list op0 (get_options op0) "k" 0 99).heap
        ((lookupA "k" ((lookupA "a" op0.options).getD [])).getD (OptVal.oint 0)) ≠
      readVal op0.heap
        ((lookupA "k" ((lookupA "a" op0.options).getD [])).getD (OptVal.oint 0)) := by
  decide

/-- Helper: reading back the cell just written in the heap yields the
written list, also when the address is out of range (both sides are then
the empty list, since writing an element of the empty default list is a
no-op). -/
theorem heap_set_getD (heap : List (List ℚ)) (a i : ℕ) (x : ℚ) :
    (heap.set a ((heap.getD a []).set i x)).getD a [] = (heap.getD a []).set i x := by
  induction heap generalizing a with
  | nil => simp
  | cons y ys ih =>
    cases a with
    | zero => simp
    | succ a2 => simpa using ih a2

/-- Claim C7 (amended): get_options returns the selection together with
a top-level copy of the values dict, so rebinding keys of the returned
dict leaves the store alone, but list-of-float entries are aliased: the
returned dict holds the very same list object (same heap address) as
the store, so assigning an element of a returned list changes the
concrete value the store holds for that key, while the options table and
the selection are untouched. -/
theorem get_options_shallow (p : OptionsPanel) (k : String) (a i : ℕ) (x : ℚ)
    (h : lookupA k (get_options p).2 = some (OptVal.olist a)) :
    lookupA k ((lookupA p.selection p.options).getD []) = some (OptVal.olist a) ∧
    (mutate_returned_list p (get_options p) k i x).options = p.options ∧
    (mutate_returned_list p (get_options p) k i x).selection = p.selection ∧
    readVal (mutate_returned_list p (get_options p) k i x).heap (OptVal.olist a) =
      CVal.clist ((p.heap.getD a []).set i x) := by
  unfold mutate_returned_list
  rw [h]
  refine ⟨h, rfl, rfl, ?_⟩
  simp only [readVal]
  rw [heap_set_getD]

theorem get_options_shallow_witness :
    lookupA "k" (get_options op0).2 = some (OptVal.olist 0) ∧
    (lookupA "k" ((lookupA op0.selection op0.options).getD []) = some (OptVal.olist 0) ∧
     (mutate_returned_list op0 (get_options op0) "k" 0 99).options = op0.options ∧
     (mutate_returned_list op0 (get_options op0) "k" 0 99).selection = op0.selection ∧
     readVal (mutate_returned_list op0 (get_options op0) "k" 0 99).heap (OptVal.olist 0) =
       CVal.clist ((op0.heap.getD 0 []).set 0 99)) :=
  ⟨by decide, get_options_shallow op0 "k" 0 0 99 (by decide)⟩

/-- Helper: a nonempty list always has a minimum under listMin. -/
theorem listMin_ne_none (y : ℚ) (ys : List ℚ) : listMin (y :: ys) ≠ none := by
  unfold listMin
  cases listMin ys <;> simp

/-- Helper: the minimum computed by listMin is a member of the list and
a lower bound for it. -/
theorem listMin_spec (l : List ℚ) (m : ℚ) (h : listMin l = some m) :
    m ∈ l ∧ ∀ x ∈ l, m ≤ x := by
  induction l generalizing m with
  | nil => simp [listMin] at h
  | cons y ys ih =>
    unfold listMin at h
    cases hys : listMin ys with
    | none =>
      rw [hys] at h
      have hm : y = m := Option.some.inj h
      have hnil : ys = [] := by
        cases ys with
        | nil => rfl
        | cons z zs => exact absurd hys (listMin_ne_none z zs)
      subst hm
      subst hnil
      simp
    | some m2 =>
      rw [hys] at h
      have hm : min y m2 = m := Option.some.inj h
      obtain ⟨hmem, hle⟩ := ih m2 hys
      subst hm
      constructor
      · rcases le_total y m2 with hc | hc
        · simp [min_eq_left hc]
        · rw [min_eq_right hc]
          exact List.mem_cons_of_mem _ hmem
      · intro x hx
        rcases List.mem_cons.mp hx with rfl | hx2
        · exact min_le_left _ _
        · exact le_trans (min_le_right _ _) (hle x hx2)

/-- Helper: a nonempty list always has a maximum under listMax. -/
theorem listMax_ne_none (y : ℚ) (ys : List ℚ) : listMax (y :: ys) ≠ none := by
  unfold listMax
  cases listMax ys <;> simp

/-- Helper: the maximum computed by listMax is a member of the list and
an upper bound for it. -/
theorem listMax_spec (l : List ℚ) (m : ℚ) (h : listMax l = some m) :
    m ∈ l ∧ ∀ x ∈ l, x ≤ m := by
  induction l generalizing m with
  | nil => simp [listMax] at h
  | cons y ys ih =>
    unfold listMax at h
    cases hys : listMax ys with
    | none =>
      rw [hys] at h
      have hm : y = m := Option.some.inj h
      have hnil : ys = [] := by
        cases ys with
        | nil => rfl
        | cons z zs => exact absurd hys (listMax_ne_none z zs)
      subst hm
      subst hnil
      simp
    | some m2 =>
      rw [hys] at h
      have hm : max y m2 = m := Option.some.inj h
      obtain ⟨hmem, hle⟩ := ih m2 hys
      subst hm
      constructor
      · rcases le_total y m2 with hc | hc
        · rw [max_eq_right hc]
          exact List.mem_cons_of_mem _ hmem
        · simp [max_eq_left hc]
      · intro x hx
        rcases List.mem_cons.mp hx with rfl | hx2
        · exact le_max_left _ _
        · exact le_trans (hle x hx2) (le_max_right _ _)

/-- Claim C8: for every coefficient vector z whose derived phase field
contains at least one finite sample (and positive unit multiplier), the
status report of update_phi_plot exists and its min and max are finite
samples of the field and tight bounds over exactly the finite samples -
non-finite samples are excluded, so no NaN reaches the displayed
bounds - and the reported RMS (carried as its square) equals
multiplier times the Euclidean norm of z. -/
theorem update_phi_plot_bounds (mul : ℚ) (raw : List FVal) (z : List ℚ)
    (hmul : 0 < mul) (hfin : ∃ q, FVal.fin q ∈ raw) :
    ∃ r, update_phi_plot mul raw z = some r ∧
      r.min1 ∈ finiteVals (raw.map (mulF mul)) ∧
      (∀ x ∈ finiteVals (raw.map (mulF mul)), r.min1 ≤ x) ∧
      r.max1 ∈ finiteVals (raw.map (mulF mul)) ∧
      (∀ x ∈ finiteVals (raw.map (mulF mul)), x ≤ r.max1) ∧
      Real.sqrt ((r.rmsSq : ℚ) : ℝ) = (mul : ℝ) * Real.sqrt ((sumSq z : ℚ) : ℝ) := by
  obtain ⟨q, hq⟩ := hfin
  have hmem : (mul * q) ∈ finiteVals (raw.map (mulF mul)) := by
    unfold finiteVals
    rw [List.mem_filterMap]
    exact ⟨FVal.fin (mul * q), List.mem_map.mpr ⟨FVal.fin q, hq, rfl⟩, rfl⟩
  have hne : finiteVals (raw.map (mulF mul)) ≠ [] := List.ne_nil_of_mem hmem
  have hminS : ∃ m1, listMin (finiteVals (raw.map (mulF mul))) = some m1 := by
    cases hl : finiteVals (raw.map (mulF mul)) with
    | nil => exact absurd hl hne
    | cons y ys =>
      unfold listMin
      cases listMin ys <;> exact ⟨_, rfl⟩
  have hmaxS : ∃ m2, listMax (finiteVals (raw.map (mulF mul))) = some m2 := by
    cases hl : finiteVals (raw.map (mulF mul)) with
    | nil => exact absurd hl hne
    | cons y ys =>
      unfold listMax
      cases listMax ys <;> exact ⟨_, rfl⟩
  obtain ⟨m1, hmin⟩ := hminS
  obtain ⟨m2, hmax⟩ := hmaxS
  obtain ⟨hmem1, hlb⟩ := listMin_spec _ _ hmin
  obtain ⟨hmem2, hub⟩ := listMax_spec _ _ hmax
  refine ⟨⟨m1, m2, m2 - m1, mul * mul * sumSq z⟩, ?_, hmem1, hlb, hmem2, hub, ?_⟩
  · simp only [update_phi_plot, hmin, hmax]
  · have hcast : ((mul * mul * sumSq z : ℚ) : ℝ) = (mul : ℝ) ^ 2 * ((sumSq z : ℚ) : ℝ) := by
      push_cast
      ring
    show Real.sqrt ((mul * mul * sumSq z : ℚ) : ℝ) = _
    rw [hcast, Real.sqrt_mul (sq_nonneg _), Real.sqrt_sq (by exact_mod_cast hmul.le)]

theorem update_phi_plot_bounds_witness :
    (0 : ℚ) < 1 ∧ (∃ q, FVal.fin q ∈ [FVal.fin 2, FVal.nan]) ∧
    (∃ r, update_phi_plot 1 [FVal.fin 2, FVal.nan] [0] = some r ∧
      r.min1 ∈ finiteVals ([FVal.fin 2, FVal.nan].map (mulF 1)) ∧
      (∀ x ∈ finiteVals ([FVal.fin 2, FVal.nan].map (mulF 1)), r.min1 ≤ x) ∧
      r.max1 ∈ finiteVals ([FVal.fin 2, FVal.nan].map (mulF 1)) ∧
      (∀ x ∈ finiteVals ([FVal.fin 2, FVal.nan].map (mulF 1)), x ≤ r.max1) ∧
      Real.sqrt ((r.rmsSq : ℚ) : ℝ) = ((1 : ℚ) : ℝ) * Real.sqrt ((sumSq [0] : ℚ) : ℝ)) :=
  ⟨by norm_num, ⟨2, by simp⟩,
   update_phi_plot_bounds 1 [FVal.fin 2, FVal.nan] [0] (by norm_num) ⟨2, by simp⟩⟩

/-- Claim C9, counterexample: with the constructor mkFail, which fails
on the stored configuration and succeeds with the defaults, the
constructor path of ZernikeWindow (init_zcontrol) does fall back to the
default construction but emits no log message at all - the exception is
swallowed silently, so the fallback is not logged on this path. -/
theorem init_fallback_cex :
    mkFail (some 0) = Except.error "boom" ∧ mkFail none = Except.ok 7 ∧
    init_zcontrol mkFail 0 = (Except.ok 7, []) :=
  ⟨rfl, rfl, rfl⟩

/-- Claim C9 (amended): whenever construction from the stored
configuration fails and default construction succeeds, both paths fall
back to the default-configured controller instead of leaving the
session uncontrollable; instance_control logs the failure through
self.log.error, but the initial construction in the window constructor
swallows the exception without logging. -/
theorem construct_fallback {Cfg Ctrl : Type} (mk : Option Cfg → Except String Ctrl)
    (stored : Cfg) (e : String) (c : Ctrl)
    (h1 : mk (some stored) = Except.error e) (h2 : mk none = Except.ok c) :
    init_zcontrol mk stored = (Except.ok c, []) ∧
    instance_control mk stored = (Except.ok c, ["instance_control " ++ e]) := by
  simp [init_zcontrol, instance_control, h1, h2]

theorem construct_fallback_witness :
    mkFail (some 0) = Except.error "boom" ∧ mkFail none = Except.ok 7 ∧
    (init_zcontrol mkFail 0 = (Except.ok 7, []) ∧
     instance_control mkFail 0 = (Except.ok 7, ["instance_control " ++ "boom"])) :=
  ⟨rfl, rfl, construct_fallback mkFail 0 "boom" 7 rfl rfl⟩
